import Mathlib

/-!
Shallow embedding of the resilient outbound-fetch core of the
n8n-yt-transcript-api repository: the proxy pool manager
(src/app/proxy_manager.py, class ProxyManager) and the retry
orchestrator (src/app/main.py, fetch_transcript_with_retry).

Machine conventions of the embedding:
* wall-clock time is passed in explicitly as a natural number of seconds
  (Python reads time.time());
* the network is passed in explicitly: each proxy-list source yields
  either `none` (the request raised) or `some (status, text)`;
* `random.sample(l, k)` is modelled by a seed-indexed deterministic
  sample `randomSample seed l k` (rotate by the seed, take k), which has
  exactly the sample's interface: `k` elements (when `k ≤ l.length`),
  all drawn from `l`, distinct when `l` has no duplicates;
* Python `set` state (`failed_proxies`) is a `Finset String`; the raw
  proxy list, rebuilt from a Python set by `list(all_proxies)`, is kept
  as a deduplicated `List String` (its order is unspecified in Python
  and no property below depends on it);
* exceptions become explicit outcome values.
-/

namespace YtTranscript

/-- The proxy dict built throughout the code:
`{"http": f"http://{addr}", "https": f"http://{addr}"}`. -/
structure ProxyDict where
  http : String
  https : String
deriving DecidableEq, Repr

/-- Build the proxy dict for an address, as in proxy_manager.py:198-201,
224-227 and the validator. -/
def mkProxyDict (addr : String) : ProxyDict :=
  { http := "http://" ++ addr, https := "http://" ++ addr }

/-- The mutable state of `ProxyManager` (proxy_manager.py:23-44), the
fields the pool operations read and write.  `ready_proxies` is the deque
with `maxlen=30` (head = rotation front), `failed_proxies` the Python
set, `last_fetch` the timestamp of the last successful raw fetch
(initially `0`), `is_validating` the batch guard. -/
structure PoolState where
  raw_proxies : List String
  last_fetch : Nat
  ready_proxies : List String
  failed_proxies : Finset String
  is_validating : Bool
deriving DecidableEq

/-- The state built by `ProxyManager.__init__` (proxy_manager.py:23-44). -/
def initialPoolState : PoolState :=
  { raw_proxies := [], last_fetch := 0, ready_proxies := [],
    failed_proxies := ∅, is_validating := false }

/-- Capacity of the ready deque: `deque(maxlen=30)` (proxy_manager.py:30). -/
def READY_MAXLEN : Nat := 30

/-- Append to a bounded deque: a full `deque(maxlen=cap)` drops its head
on append. -/
def dequeAppend (cap : Nat) (l : List String) (a : String) : List String :=
  if l.length < cap then l ++ [a] else l.tail ++ [a]

/-- Python `str.strip()`: drop whitespace from both ends. -/
def pyStrip (s : String) : String :=
  ⟨((s.data.dropWhile Char.isWhitespace).reverse.dropWhile
      Char.isWhitespace).reverse⟩

/-- Split a character list at every occurrence of `sep`, keeping empty
pieces — Python `str.split(sep)` for a one-character separator.  `acc`
holds the current piece reversed. -/
def splitOnCharAux (sep : Char) : List Char → List Char → List (List Char)
  | [], acc => [acc.reverse]
  | c :: rest, acc =>
      if c = sep then acc.reverse :: splitOnCharAux sep rest []
      else splitOnCharAux sep rest (c :: acc)

/-- Python `str.split(sep)` for a one-character separator. -/
def pySplitOnChar (sep : Char) (s : String) : List String :=
  (splitOnCharAux sep s.data []).map (fun cs => ⟨cs⟩)

/-- Python `x in s` for a one-character needle. -/
def pyContainsChar (c : Char) (s : String) : Bool :=
  s.data.any (fun d => d = c)

/-- Replace every non-overlapping occurrence of `old` by `new`, left to
right, the replacement not rescanned — Python `str.replace(old, new)`
for nonempty `old`.  The fuel argument (at least the list length) makes
the recursion structural. -/
def replaceAllAux (old new : List Char) : Nat → List Char → List Char
  | _, [] => []
  | 0, l => l
  | fuel + 1, c :: rest =>
      if old.isPrefixOf (c :: rest) then
        new ++ replaceAllAux old new fuel ((c :: rest).drop old.length)
      else
        c :: replaceAllAux old new fuel rest

/-- Python `str.replace(old, new)` (for nonempty `old`). -/
def pyReplace (s old new : String) : String :=
  ⟨replaceAllAux old.data new.data s.data.length s.data⟩

/-- One line of a fetched proxy list survives parsing when its stripped
form is nonempty and the line contains a colon; the stripped form is
kept (proxy_manager.py:81-82). -/
def parseProxyLines (text : String) : List String :=
  ((pySplitOnChar '\n' (pyStrip text)).filter
      (fun line => pyStrip line ≠ "" ∧ pyContainsChar ':' line)).map pyStrip

/-- A proxy-list source's answer: `none` when `requests.get` raised,
`some (status, body)` otherwise. -/
def SourceResponse := Option (Nat × String)

/-- What one source contributes to the merged candidate set
(proxy_manager.py:76-86): nothing on an exception or a non-200 status,
its parsed lines otherwise. -/
def sourceProxies (r : SourceResponse) : List String :=
  match r with
  | none => []
  | some (status, text) => if status = 200 then parseProxyLines text else []

/-- `_fetch_raw_proxies` (proxy_manager.py:72-98) over the given source
responses at time `now`: merge all contributions into a deduplicated
set; when nonempty, replace `raw_proxies` wholesale, stamp `last_fetch`
and clear `failed_proxies`, returning `true`; when empty, change nothing
and return `false`. -/
def fetch_raw_proxies (now : Nat) (responses : List SourceResponse)
    (s : PoolState) : Bool × PoolState :=
  let all_proxies := (responses.foldl (fun acc r => acc ++ sourceProxies r) []).dedup
  if all_proxies.isEmpty then
    (false, s)
  else
    (true, { s with raw_proxies := all_proxies, last_fetch := now,
                    failed_proxies := ∅ })

/-- `mark_proxy_failed` (proxy_manager.py:234-249): strip the scheme from
the URL, add the address to `failed_proxies`, and remove it from the
ready deque (`deque.remove` drops the first occurrence; its
`ValueError` when absent is swallowed). -/
def mark_proxy_failed (proxy_url : String) (s : PoolState) : PoolState :=
  let proxy_addr := pyReplace (pyReplace proxy_url "http://" "") "https://" ""
  { s with failed_proxies := insert proxy_addr s.failed_proxies,
           ready_proxies := s.ready_proxies.erase proxy_addr }

/-- `get_proxy` (proxy_manager.py:188-207): return the head of the ready
deque rotated to the tail, or `none` when the pool is empty (the
fire-and-forget validation thread spawned in that branch mutates no pool
field here). -/
def get_proxy (s : PoolState) : Option ProxyDict × PoolState :=
  match s.ready_proxies with
  | [] => (none, s)
  | p :: rest => (some (mkProxyDict p), { s with ready_proxies := rest ++ [p] })

/-- The loop of `get_proxies_for_retry` (proxy_manager.py:218-227): `k`
iterations; each takes the deque head, rotates it to the tail, and
records the address when not yet seen.  Returns the recorded addresses
in call order and the rotated pool. -/
def takeNLoop : Nat → List String → List String → List String →
    List String × List String
  | 0, pool, _seen, acc => (acc, pool)
  | k + 1, [], seen, acc => takeNLoop k [] seen acc
  | k + 1, p :: rest, seen, acc =>
      if p ∈ seen then takeNLoop k (rest ++ [p]) seen acc
      else takeNLoop k (rest ++ [p]) (p :: seen) (acc ++ [p])

/-- `get_proxies_for_retry` (proxy_manager.py:209-232): pull up to
`count` distinct proxies from the ready deque (the loop bound
`min(count, len(ready_proxies))` is fixed up front; each take rotates),
then always append `None` — the direct-connection path — as the last
element. -/
def get_proxies_for_retry (count : Nat) (pool : List String) :
    List (Option ProxyDict) × List String :=
  let r := takeNLoop (min count pool.length) pool [] []
  (r.1.map (fun a => some (mkProxyDict a)) ++ [none], r.2)

/-- The stats snapshot of `get_stats` (proxy_manager.py:251-258). -/
structure PoolStats where
  ready_proxies : Nat
  raw_proxies : Nat
  failed_proxies : Nat
  last_fetch_ago : Option Nat
deriving DecidableEq, Repr

/-- `get_stats` (proxy_manager.py:251-258) at wall-clock time `now`:
`last_fetch_ago` is `int(time.time() - last_fetch)` when `last_fetch`
is truthy (nonzero) and `None` otherwise. -/
def get_stats (now : Nat) (s : PoolState) : PoolStats :=
  { ready_proxies := s.ready_proxies.length,
    raw_proxies := s.raw_proxies.length,
    failed_proxies := s.failed_proxies.card,
    last_fetch_ago := if s.last_fetch = 0 then none else some (now - s.last_fetch) }

/-- Deterministic model of `random.sample(l, k)`: rotate the population
by the seed, then take `k`.  Whatever the seed, the result has
`min k l.length` elements, all drawn from `l`, distinct when `l` has no
duplicates — the interface of a random sample without replacement. -/
def randomSample (seed : Nat) (l : List String) (k : Nat) : List String :=
  (l.rotate seed).take k

/-- The first candidate selection of `_validate_batch`
(proxy_manager.py:142-150): raw proxies neither ready nor failed. -/
def primaryCandidates (s : PoolState) : List String :=
  s.raw_proxies.filter
    (fun p => p ∉ s.ready_proxies ∧ p ∉ s.failed_proxies)

/-- The fallback selection of `_validate_batch` (proxy_manager.py:157),
made after clearing `failed_proxies`: raw proxies not already ready. -/
def fallbackCandidates (s : PoolState) : List String :=
  s.raw_proxies.filter (fun p => p ∉ s.ready_proxies)

/-- The validation loop of `_validate_batch` (proxy_manager.py:162-174):
walk the sampled batch, breaking as soon as the ready deque holds
`maxlen` (30) entries; a proxy passing `_validate_proxy` is appended to
the ready deque, one failing it is added to `failed_proxies`.  The
verdict of `_validate_proxy` for each address is the environment's
input `validate`.  Besides the final state, the list of addresses
actually attempted (passed to `_validate_proxy`) is returned. -/
def validateLoop (validate : String → Bool) :
    List String → PoolState → PoolState × List String
  | [], s => (s, [])
  | p :: rest, s =>
      if READY_MAXLEN ≤ s.ready_proxies.length then (s, [])
      else if validate p then
        let r := validateLoop validate rest
          { s with ready_proxies := dequeAppend READY_MAXLEN s.ready_proxies p }
        (r.1, p :: r.2)
      else
        let r := validateLoop validate rest
          { s with failed_proxies := insert p s.failed_proxies }
        (r.1, p :: r.2)

/-- The body of `_validate_batch` after the guard is set and the raw
list refetched if it was empty (proxy_manager.py:139-181), from state
`s2`: bail out when the raw list is still empty; select candidates (raw
minus ready minus failed — when that is empty, clear `failed_proxies`
and re-select raw minus ready); sample `min(len(candidates), batch_size)`
of them; run the validation loop; reset the guard.  Returns the new
state and the list of addresses attempted. -/
def validateBatchFrom (batch_size : Nat) (seed : Nat) (validate : String → Bool)
    (s2 : PoolState) : PoolState × List String :=
  if s2.raw_proxies.isEmpty then ({ s2 with is_validating := false }, [])
  else
    let cands := primaryCandidates s2
    let sel : List String × PoolState :=
      if cands.isEmpty then
        (fallbackCandidates s2, { s2 with failed_proxies := ∅ })
      else (cands, s2)
    let batch := randomSample seed sel.1 (min sel.1.length batch_size)
    let r := validateLoop validate batch sel.2
    ({ r.1 with is_validating := false }, r.2)

/-- `_validate_batch` (proxy_manager.py:128-181): bail out when a batch
is already running; set the guard; fetch the raw list when it is empty;
then run the selection-and-validation body `validateBatchFrom`. -/
def validate_batch (batch_size : Nat) (seed : Nat) (validate : String → Bool)
    (now : Nat) (responses : List SourceResponse) (s : PoolState) :
    PoolState × List String :=
  if s.is_validating then (s, [])
  else
    let s1 : PoolState := { s with is_validating := true }
    let s2 := if s1.raw_proxies.isEmpty then (fetch_raw_proxies now responses s1).2 else s1
    validateBatchFrom batch_size seed validate s2

/-- `_refresh_proxy_pool` (proxy_manager.py:183-186): fetch a new raw
list, then validate a batch of 50. -/
def refresh_proxy_pool (seed : Nat) (validate : String → Bool) (now : Nat)
    (responses : List SourceResponse) (s : PoolState) : PoolState :=
  (validate_batch 50 seed validate now responses (fetch_raw_proxies now responses s).2).1

/-! ### The retry orchestrator (src/app/main.py) -/

/-- `MAX_RETRY_ATTEMPTS` (main.py:52). -/
def MAX_RETRY_ATTEMPTS : Nat := 4

/-- The target-specific exceptions of main.py:332: transcripts disabled,
video unavailable, no transcript found. -/
inductive PermanentKind where
  | transcriptsDisabled
  | videoUnavailable
  | noTranscriptFound
deriving DecidableEq, Repr

/-- Outcome of running the fetch operation through one execution path
(one iteration body of main.py:274-344): the transcript data and
language on success; one of the three video-specific exceptions; or any
other exception, identified by its type name (`type(e).__name__`). -/
inductive FetchOutcome where
  | success (data : String) (lang : String)
  | permanent (kind : PermanentKind)
  | transient (errType : String)
deriving DecidableEq, Repr

/-- Whether an outcome falls to the catch-all `except Exception` handler
of main.py:336. -/
def FetchOutcome.isTransient : FetchOutcome → Bool
  | .transient _ => true
  | _ => false

/-- What `fetch_transcript_with_retry` terminates with: a transcript; a
re-raised video-specific exception (main.py:332-334); or, after all
paths failed, the final raise of main.py:346-349, which carries the
per-path summaries `errors_by_proxy` (each `f"{proxy_desc}: {error_type}"`,
joined into the logged `error_summary`) and the re-raised `last_error`. -/
inductive RetryResult where
  | ok (data : String) (lang : String)
  | permanentErr (kind : PermanentKind)
  | allFailed (errors_by_proxy : List String) (last_error : String)
deriving DecidableEq, Repr

/-- `proxy_desc` for an execution path (main.py:275-276): the proxy URL,
or `"direct connection"` for the direct path. -/
def proxyDesc (path : Option ProxyDict) : String :=
  match path with
  | some proxies => proxies.https
  | none => "direct connection"

/-- The entry appended to `errors_by_proxy` when the attempt on `path`
fails (main.py:338-339). -/
def attemptSummary (op : Option ProxyDict → FetchOutcome)
    (path : Option ProxyDict) : String :=
  proxyDesc path ++ ": " ++
    (match op path with
     | .transient errType => errType
     | _ => "")

/-- The pool effect of a failed attempt (main.py:342-344): a proxy path
is marked failed; the direct path touches no pool state. -/
def evictPath (path : Option ProxyDict) (s : PoolState) : PoolState :=
  match path with
  | some proxies => mark_proxy_failed proxies.https s
  | none => s

/-- The retry loop of `fetch_transcript_with_retry` (main.py:271-349)
over the remaining plan, carrying `errors_by_proxy` and `last_error`.
Success returns immediately; a video-specific exception is re-raised
immediately; any other exception is recorded, the proxy (if the path
was one) is marked failed, and the next path is tried; when the paths
run out, the final raise carries the summaries and the last error.
The third component lists the paths on which the operation was actually
invoked. -/
def retryLoop (op : Option ProxyDict → FetchOutcome) :
    List (Option ProxyDict) → PoolState → List String → Option String →
    RetryResult × PoolState × List (Option ProxyDict)
  | [], s, errors_by_proxy, last_error =>
      (.allFailed errors_by_proxy
        (last_error.getD "Failed to fetch transcript after all attempts"),
       s, [])
  | path :: rest, s, errors_by_proxy, _last_error =>
      match op path with
      | .success data lang => (.ok data lang, s, [path])
      | .permanent kind => (.permanentErr kind, s, [path])
      | .transient errType =>
          let r := retryLoop op rest (evictPath path s)
            (errors_by_proxy ++ [proxyDesc path ++ ": " ++ errType])
            (some errType)
          (r.1, r.2.1, path :: r.2.2)

/-- `fetch_transcript_with_retry` (main.py:258-349): build the plan by
`get_proxies_for_retry(count=MAX_RETRY_ATTEMPTS - 1)` on the ready pool,
then run the retry loop (the per-attempt cookie session carries no pool
state and is absorbed into `op`). -/
def fetch_transcript_with_retry (op : Option ProxyDict → FetchOutcome)
    (s : PoolState) : RetryResult × PoolState × List (Option ProxyDict) :=
  let plan := get_proxies_for_retry (MAX_RETRY_ATTEMPTS - 1) s.ready_proxies
  retryLoop op plan.1 { s with ready_proxies := plan.2 } [] none

/-! ### The background worker (proxy_manager.py:48-70) -/

/-- Whether one maintenance cycle of the worker's own work runs to
completion or raises. -/
inductive CycleOutcome where
  | ok
  | raises
deriving DecidableEq, Repr

/-- How the `_background_worker` thread ends. -/
inductive WorkerExit where
  | stopped
  | crashed
deriving DecidableEq, Repr

/-- The steady-state loop of `_background_worker`
(proxy_manager.py:54-70): each iteration's body runs inside
`try/except Exception`, so the loop continues whether the body returns
or raises (after a 60s back-off in the latter case); the loop ends only
when `_stop_event` is set — modelled as the iteration trace running
out. -/
def workerSteadyLoop : List CycleOutcome → WorkerExit
  | [] => .stopped
  | _ :: rest => workerSteadyLoop rest

/-- `_background_worker` (proxy_manager.py:48-70): the initial
fetch-and-validate cycle `self._refresh_proxy_pool()` (line 52) runs
*outside* any `try`, so an exception there propagates and the thread
dies; otherwise the steady-state loop runs until shutdown. -/
def background_worker (initialCycle : CycleOutcome)
    (loopCycles : List CycleOutcome) : WorkerExit :=
  match initialCycle with
  | .raises => .crashed
  | .ok => workerSteadyLoop loopCycles

/-! ## Lemmas about the ready-pool take loop -/

/-- Each iteration of the take loop records at most one address. -/
theorem takeNLoop_length_le : ∀ (k : Nat) (pool seen acc : List String),
    (takeNLoop k pool seen acc).1.length ≤ acc.length + k := by
  intro k
  induction k with
  | zero => intro pool seen acc; simp [takeNLoop]
  | succ k ih =>
      intro pool seen acc
      match pool with
      | [] =>
          calc (takeNLoop (k + 1) [] seen acc).1.length
              ≤ acc.length + k := ih [] seen acc
            _ ≤ acc.length + (k + 1) := by omega
      | p :: rest =>
          rw [takeNLoop]
          by_cases hp : p ∈ seen
          · rw [if_pos hp]
            calc (takeNLoop k (rest ++ [p]) seen acc).1.length
                ≤ acc.length + k := ih _ _ _
              _ ≤ acc.length + (k + 1) := by omega
          · rw [if_neg hp]
            calc (takeNLoop k (rest ++ [p]) (p :: seen) (acc ++ [p])).1.length
                ≤ (acc ++ [p]).length + k := ih _ _ _
              _ ≤ acc.length + (k + 1) := by simp; omega

/-- The take loop keeps its accumulator duplicate-free: an address is
recorded only when it enters `seen`, and everything recorded is in
`seen`. -/
theorem takeNLoop_nodup : ∀ (k : Nat) (pool seen acc : List String),
    acc.Nodup → (∀ a ∈ acc, a ∈ seen) → (takeNLoop k pool seen acc).1.Nodup := by
  intro k
  induction k with
  | zero => intro pool seen acc hnd _; simpa [takeNLoop] using hnd
  | succ k ih =>
      intro pool seen acc hnd hsub
      match pool with
      | [] => exact ih [] seen acc hnd hsub
      | p :: rest =>
          rw [takeNLoop]
          by_cases hp : p ∈ seen
          · rw [if_pos hp]; exact ih _ _ _ hnd hsub
          · rw [if_neg hp]
            refine ih _ _ _ ?_ ?_
            · have hpacc : p ∉ acc := fun hmem => hp (hsub p hmem)
              simp [List.nodup_append, hnd, hpacc]
            · intro a ha
              rcases List.mem_append.mp ha with h | h
              · exact List.mem_cons_of_mem _ (hsub a h)
              · simp at h; simp [h]

/-- The take loop rotates the pool once per iteration (an empty pool
stays empty). -/
theorem takeNLoop_pool_rotate : ∀ (k : Nat) (pool seen acc : List String),
    (takeNLoop k pool seen acc).2 = pool.rotate k := by
  intro k
  induction k with
  | zero => intro pool seen acc; simp [takeNLoop, List.rotate_zero]
  | succ k ih =>
      intro pool seen acc
      match pool with
      | [] => rw [takeNLoop, ih, List.rotate_nil, List.rotate_nil]
      | p :: rest =>
          rw [takeNLoop, List.rotate_cons_succ]
          by_cases hp : p ∈ seen
          · rw [if_pos hp, ih]
          · rw [if_neg hp, ih]

/-- C3.  The retry plan is a duplicate-free list of proxies of length at
most `min n (pool size)`, always terminated by exactly one trailing
direct (`none`) path; with `maxAttempts = 3` and pool `[A]` the plan is
`[A, direct]` of length 2, not padded to 3. -/
theorem get_proxies_for_retry_plan_shape (pool : List String) (n : Nat) :
    (∃ addrs : List String,
      (get_proxies_for_retry n pool).1 =
        addrs.map (fun a => some (mkProxyDict a)) ++ [none] ∧
      addrs.Nodup ∧ addrs.length ≤ min n pool.length) ∧
    get_proxies_for_retry (3 - 1) ["A"] =
      ([some (mkProxyDict "A"), none], ["A"]) ∧
    (get_proxies_for_retry (3 - 1) ["A"]).1.length = 2 := by
  refine ⟨⟨(takeNLoop (min n pool.length) pool [] []).1, rfl, ?_, ?_⟩, by decide, by decide⟩
  · exact takeNLoop_nodup _ _ _ _ List.nodup_nil (by simp)
  · simpa using takeNLoop_length_le (min n pool.length) pool [] []

/-- C4.  On ready pool `[A, B, C]`, `get_proxies_for_retry` with count 2
returns the proxies `A, B` in order (then the direct fallback) and
leaves the pool rotated to `[C, A, B]` — nothing added, nothing
removed. -/
theorem get_proxies_for_retry_rotation_scenario :
    get_proxies_for_retry 2 ["A", "B", "C"] =
      ([some (mkProxyDict "A"), some (mkProxyDict "B"), none], ["C", "A", "B"]) ∧
    List.Perm ["C", "A", "B"] ["A", "B", "C"] := by
  constructor
  · decide
  · decide

/-! ## Lemmas about the retry loop -/

/-- When every path of the remaining plan fails with the catch-all
exception class, the loop walks the whole plan, appends one
`proxy_desc: error_type` summary per path, evicts exactly the proxy
paths, and ends in the final all-attempts-failed raise. -/
theorem retryLoop_all_transient (op : Option ProxyDict → FetchOutcome) :
    ∀ (plan : List (Option ProxyDict)) (s : PoolState)
      (errors : List String) (lastE : Option String),
    (∀ p ∈ plan, (op p).isTransient = true) →
    ∃ last_error, retryLoop op plan s errors lastE =
      (.allFailed (errors ++ plan.map (attemptSummary op)) last_error,
       plan.foldl (fun st p => evictPath p st) s, plan) := by
  intro plan
  induction plan with
  | nil =>
      intro s errors lastE _
      exact ⟨lastE.getD "Failed to fetch transcript after all attempts",
        by simp [retryLoop]⟩
  | cons path rest ih =>
      intro s errors lastE hall
      have hp := hall path (List.mem_cons_self _ _)
      rcases hop : op path with ⟨d, l⟩ | ⟨k⟩ | ⟨errType⟩
      · rw [hop] at hp; simp [FetchOutcome.isTransient] at hp
      · rw [hop] at hp; simp [FetchOutcome.isTransient] at hp
      · obtain ⟨le, hr⟩ := ih (evictPath path s)
          (errors ++ [proxyDesc path ++ ": " ++ errType]) (some errType)
          (fun q hq => hall q (List.mem_cons_of_mem _ hq))
        refine ⟨le, ?_⟩
        simp only [retryLoop, hop, hr, List.foldl_cons, List.map_cons]
        refine Prod.ext ?_ rfl
        simp [attemptSummary, hop, List.append_assoc]

/-- C1.  If the operation fails with a non-video-specific exception on
every execution path, `fetch_transcript_with_retry` ends in the final
raise of main.py:346-349 carrying one `proxy_desc: error_type` summary
per path of the plan, so the failure count equals the plan length. -/
theorem fetch_retry_all_transient_aggregates
    (op : Option ProxyDict → FetchOutcome) (s : PoolState)
    (h : ∀ path, (op path).isTransient = true) :
    ∃ last_error,
      (fetch_transcript_with_retry op s).1 =
        RetryResult.allFailed
          ((get_proxies_for_retry (MAX_RETRY_ATTEMPTS - 1) s.ready_proxies).1.map
            (attemptSummary op)) last_error ∧
      ((get_proxies_for_retry (MAX_RETRY_ATTEMPTS - 1) s.ready_proxies).1.map
          (attemptSummary op)).length =
        (get_proxies_for_retry (MAX_RETRY_ATTEMPTS - 1) s.ready_proxies).1.length := by
  obtain ⟨le, hr⟩ := retryLoop_all_transient op
    (get_proxies_for_retry (MAX_RETRY_ATTEMPTS - 1) s.ready_proxies).1
    { s with ready_proxies :=
        (get_proxies_for_retry (MAX_RETRY_ATTEMPTS - 1) s.ready_proxies).2 }
    [] none (fun p _ => h p)
  refine ⟨le, ?_, List.length_map _ _⟩
  have hdef : fetch_transcript_with_retry op s =
      retryLoop op (get_proxies_for_retry (MAX_RETRY_ATTEMPTS - 1) s.ready_proxies).1
        { s with ready_proxies :=
            (get_proxies_for_retry (MAX_RETRY_ATTEMPTS - 1) s.ready_proxies).2 }
        [] none := rfl
  rw [hdef, hr]
  simp

/-- Witness for C1: one ready proxy, every attempt raising
`ConnectionError`; the aggregated summaries name both paths. -/
theorem fetch_retry_all_transient_aggregates_witness :
    ∃ last_error,
      (fetch_transcript_with_retry (fun _ => FetchOutcome.transient "ConnectionError")
        { initialPoolState with ready_proxies := ["1.1.1.1:80"] }).1 =
      RetryResult.allFailed
        ["http://1.1.1.1:80: ConnectionError", "direct connection: ConnectionError"]
        last_error := by
  obtain ⟨le, h1, _⟩ := fetch_retry_all_transient_aggregates
    (fun _ => FetchOutcome.transient "ConnectionError")
    { initialPoolState with ready_proxies := ["1.1.1.1:80"] } (fun _ => rfl)
  rw [show ((get_proxies_for_retry (MAX_RETRY_ATTEMPTS - 1)
        ({ initialPoolState with ready_proxies := ["1.1.1.1:80"] } : PoolState).ready_proxies).1.map
        (attemptSummary (fun _ => FetchOutcome.transient "ConnectionError"))) =
      ["http://1.1.1.1:80: ConnectionError", "direct connection: ConnectionError"]
    from by decide] at h1
  exact ⟨le, h1⟩

/-- General form of C2 over the loop's accumulators: the attempts
before the permanent failure all being transient, the loop marks
exactly their proxies failed, then aborts at the permanent path. -/
theorem retryLoop_permanent_general (op : Option ProxyDict → FetchOutcome)
    (path_k : Option ProxyDict) (post : List (Option ProxyDict))
    (kind : PermanentKind) (hk : op path_k = .permanent kind) :
    ∀ (pre : List (Option ProxyDict)) (s : PoolState)
      (errors : List String) (lastE : Option String),
    (∀ p ∈ pre, (op p).isTransient = true) →
    retryLoop op (pre ++ path_k :: post) s errors lastE =
      (.permanentErr kind, pre.foldl (fun st p => evictPath p st) s,
       pre ++ [path_k]) := by
  intro pre
  induction pre with
  | nil => intro s errors lastE _; simp [retryLoop, hk]
  | cons p pre ih =>
      intro s errors lastE hpre
      have hp := hpre p (List.mem_cons_self _ _)
      rcases hop : op p with ⟨d, l⟩ | ⟨k2⟩ | ⟨errType⟩
      · rw [hop] at hp; simp [FetchOutcome.isTransient] at hp
      · rw [hop] at hp; simp [FetchOutcome.isTransient] at hp
      · simp only [List.cons_append, retryLoop, hop, List.append_eq]
        rw [ih (evictPath p s) (errors ++ [proxyDesc p ++ ": " ++ errType])
            (some errType) (fun q hq => hpre q (List.mem_cons_of_mem _ hq))]
        simp [List.foldl_cons]

/-- C2.  In a plan `pre ++ [path_k] ++ post` (so attempt index
`k = pre.length` and plan length `m = k + 1 + post.length`), when the
attempts before `path_k` fail transiently and the operation on `path_k`
raises a video-specific (permanent) exception, the loop re-raises it
immediately: the operation is invoked only on the first `k + 1` paths —
never on `post` — and the pool mutations are the evictions of the `k`
earlier attempts, none for attempt `k` itself. -/
theorem retry_permanent_stops_immediately (op : Option ProxyDict → FetchOutcome)
    (pre : List (Option ProxyDict)) (path_k : Option ProxyDict)
    (post : List (Option ProxyDict)) (s : PoolState) (kind : PermanentKind)
    (hpre : ∀ p ∈ pre, (op p).isTransient = true)
    (hk : op path_k = .permanent kind) :
    retryLoop op (pre ++ path_k :: post) s [] none =
      (RetryResult.permanentErr kind,
       pre.foldl (fun st p => evictPath p st) s,
       pre ++ [path_k]) ∧
    pre ++ [path_k] = (pre ++ path_k :: post).take (pre.length + 1) := by
  refine ⟨retryLoop_permanent_general op path_k post kind hk pre s [] none hpre, ?_⟩
  rw [List.take_append_eq_append_take]
  simp

/-- Witness for C2: a three-path plan whose second path hits a
permanent failure; only the first proxy is evicted and the direct path
is never attempted. -/
theorem retry_permanent_stops_immediately_witness :
    retryLoop
      (fun path => if path = some (mkProxyDict "2.2.2.2:80")
        then FetchOutcome.permanent PermanentKind.videoUnavailable
        else FetchOutcome.transient "ConnectionError")
      [some (mkProxyDict "1.1.1.1:80"), some (mkProxyDict "2.2.2.2:80"), none]
      initialPoolState [] none =
      (RetryResult.permanentErr PermanentKind.videoUnavailable,
       mark_proxy_failed "http://1.1.1.1:80" initialPoolState,
       [some (mkProxyDict "1.1.1.1:80"), some (mkProxyDict "2.2.2.2:80")]) := by
  have h := retry_permanent_stops_immediately
    (fun path => if path = some (mkProxyDict "2.2.2.2:80")
      then FetchOutcome.permanent PermanentKind.videoUnavailable
      else FetchOutcome.transient "ConnectionError")
    [some (mkProxyDict "1.1.1.1:80")] (some (mkProxyDict "2.2.2.2:80")) [none]
    initialPoolState PermanentKind.videoUnavailable (by decide) (by decide)
  exact h.1.trans (by decide)

/-! ## Lemmas about batch validation -/

/-- The modelled random sample keeps the sample-size interface of
`random.sample`. -/
theorem randomSample_length (seed : Nat) (l : List String) (k : Nat) :
    (randomSample seed l k).length = min k l.length := by
  simp [randomSample, List.length_take, List.length_rotate]

/-- The flag set at the top of `_validate_batch` changes no candidate
selection. -/
theorem primaryCandidates_set_flag (s : PoolState) (b : Bool) :
    primaryCandidates { s with is_validating := b } = primaryCandidates s := rfl

/-- The flag set at the top of `_validate_batch` changes no candidate
selection. -/
theorem fallbackCandidates_set_flag (s : PoolState) (b : Bool) :
    fallbackCandidates { s with is_validating := b } = fallbackCandidates s := rfl

/-- The validation loop attempts an initial segment of its batch (it
stops early only at the capacity break). -/
theorem validateLoop_attempted_prefix (validate : String → Bool) :
    ∀ (batch : List String) (s : PoolState),
    ∃ n, (validateLoop validate batch s).2 = batch.take n := by
  intro batch
  induction batch with
  | nil => intro s; exact ⟨0, rfl⟩
  | cons p rest ih =>
      intro s
      by_cases hfull : READY_MAXLEN ≤ s.ready_proxies.length
      · exact ⟨0, by simp [validateLoop, hfull]⟩
      · by_cases hv : validate p = true
        · obtain ⟨n, hn⟩ := ih
            { s with ready_proxies := dequeAppend READY_MAXLEN s.ready_proxies p }
          exact ⟨n + 1, by simp [validateLoop, hfull, hv, hn]⟩
        · obtain ⟨n, hn⟩ := ih { s with failed_proxies := insert p s.failed_proxies }
          exact ⟨n + 1, by simp [validateLoop, hfull, hv, hn]⟩

/-- Every address in the failed set after the validation loop was
either failed before it or was one of the attempted addresses. -/
theorem validateLoop_failed_subset (validate : String → Bool) :
    ∀ (batch : List String) (s : PoolState) (a : String),
    a ∈ (validateLoop validate batch s).1.failed_proxies →
    a ∈ s.failed_proxies ∨ a ∈ (validateLoop validate batch s).2 := by
  intro batch
  induction batch with
  | nil => intro s a ha; exact Or.inl ha
  | cons p rest ih =>
      intro s a ha
      by_cases hfull : READY_MAXLEN ≤ s.ready_proxies.length
      · simp only [validateLoop, if_pos hfull] at ha ⊢
        exact Or.inl ha
      · by_cases hv : validate p = true
        · simp only [validateLoop, if_neg hfull, if_pos hv] at ha ⊢
          rcases ih _ a ha with h | h
          · exact Or.inl h
          · exact Or.inr (List.mem_cons_of_mem _ h)
        · simp only [validateLoop, if_neg hfull, if_neg hv] at ha ⊢
          rcases ih _ a ha with h | h
          · rcases Finset.mem_insert.mp h with h | h
            · exact Or.inr (h ▸ List.mem_cons_self _ _)
            · exact Or.inl h
          · exact Or.inr (List.mem_cons_of_mem _ h)

/-- C5.  With no batch already running and a nonempty raw list,
`_validate_batch` samples from `rawCandidates` minus
(`readyQueue` ∪ `failedSet`); when that difference is empty it clears
`failedSet` (every address failed afterwards is one of this batch's
attempts) and re-samples from `rawCandidates` minus `readyQueue`; and
the attempted addresses never outnumber the available candidates nor
the batch size. -/
theorem validate_batch_candidate_selection
    (bsz seed : Nat) (validate : String → Bool) (now : Nat)
    (responses : List SourceResponse) (s : PoolState)
    (hguard : s.is_validating = false) (hraw : s.raw_proxies ≠ []) :
    (primaryCandidates s ≠ [] →
      (∃ n, (validate_batch bsz seed validate now responses s).2 =
        (randomSample seed (primaryCandidates s)
          (min (primaryCandidates s).length bsz)).take n) ∧
      (validate_batch bsz seed validate now responses s).2.length ≤
        (primaryCandidates s).length ∧
      (validate_batch bsz seed validate now responses s).2.length ≤ bsz) ∧
    (primaryCandidates s = [] →
      (∃ n, (validate_batch bsz seed validate now responses s).2 =
        (randomSample seed (fallbackCandidates s)
          (min (fallbackCandidates s).length bsz)).take n) ∧
      (validate_batch bsz seed validate now responses s).2.length ≤
        (fallbackCandidates s).length ∧
      (∀ a ∈ (validate_batch bsz seed validate now responses s).1.failed_proxies,
        a ∈ (validate_batch bsz seed validate now responses s).2)) := by
  have hne : s.raw_proxies.isEmpty = false := by
    cases h : s.raw_proxies with
    | nil => exact absurd h hraw
    | cons a l => rfl
  constructor
  · intro hp
    have hpe : (primaryCandidates s).isEmpty = false := by
      cases h : primaryCandidates s with
      | nil => exact absurd h hp
      | cons a l => rfl
    have heq : validate_batch bsz seed validate now responses s =
        ({ (validateLoop validate
              (randomSample seed (primaryCandidates s)
                (min (primaryCandidates s).length bsz))
              { s with is_validating := true }).1 with is_validating := false },
          (validateLoop validate
              (randomSample seed (primaryCandidates s)
                (min (primaryCandidates s).length bsz))
              { s with is_validating := true }).2) := by
      simp only [validate_batch, validateBatchFrom, hguard, primaryCandidates_set_flag,
        fallbackCandidates_set_flag, hne, hpe, Bool.false_eq_true, if_false,
        List.isEmpty_nil]
    obtain ⟨n, hn⟩ := validateLoop_attempted_prefix validate
      (randomSample seed (primaryCandidates s) (min (primaryCandidates s).length bsz))
      { s with is_validating := true }
    have h1 : ((randomSample seed (primaryCandidates s)
        (min (primaryCandidates s).length bsz)).take n).length ≤
        (randomSample seed (primaryCandidates s)
          (min (primaryCandidates s).length bsz)).length :=
      List.length_take_le' _ _
    have h2 := randomSample_length seed (primaryCandidates s)
      (min (primaryCandidates s).length bsz)
    refine ⟨⟨n, by rw [heq]; exact hn⟩, ?_, ?_⟩
    · rw [heq, hn]; omega
    · rw [heq, hn]; omega
  · intro hp
    have heq : validate_batch bsz seed validate now responses s =
        ({ (validateLoop validate
              (randomSample seed (fallbackCandidates s)
                (min (fallbackCandidates s).length bsz))
              { s with is_validating := true, failed_proxies := ∅ }).1
            with is_validating := false },
          (validateLoop validate
              (randomSample seed (fallbackCandidates s)
                (min (fallbackCandidates s).length bsz))
              { s with is_validating := true, failed_proxies := ∅ }).2) := by
      simp only [validate_batch, validateBatchFrom, hguard, primaryCandidates_set_flag,
        fallbackCandidates_set_flag, hne, hp, Bool.false_eq_true, if_false,
        List.isEmpty_nil]
      rfl
    obtain ⟨n, hn⟩ := validateLoop_attempted_prefix validate
      (randomSample seed (fallbackCandidates s) (min (fallbackCandidates s).length bsz))
      { s with is_validating := true, failed_proxies := ∅ }
    have h1 : ((randomSample seed (fallbackCandidates s)
        (min (fallbackCandidates s).length bsz)).take n).length ≤
        (randomSample seed (fallbackCandidates s)
          (min (fallbackCandidates s).length bsz)).length :=
      List.length_take_le' _ _
    have h2 := randomSample_length seed (fallbackCandidates s)
      (min (fallbackCandidates s).length bsz)
    refine ⟨⟨n, by rw [heq]; exact hn⟩, ?_, ?_⟩
    · rw [heq, hn]; omega
    · intro a ha
      rw [heq] at ha ⊢
      rcases validateLoop_failed_subset validate _ _ a ha with h | h
      · simp at h
      · exact h

/-- Witness for C5: batch size 30 against five untried raw candidates —
exactly 5 addresses are attempted, not 30. -/
theorem validate_batch_candidate_selection_witness :
    (validate_batch 30 0 (fun _ => false) 0 []
      { initialPoolState with
          raw_proxies := ["a:1", "b:1", "c:1", "d:1", "e:1"] }).2.length ≤
      (primaryCandidates
        { initialPoolState with
            raw_proxies := ["a:1", "b:1", "c:1", "d:1", "e:1"] }).length ∧
    (primaryCandidates
      { initialPoolState with
          raw_proxies := ["a:1", "b:1", "c:1", "d:1", "e:1"] }).length = 5 ∧
    (validate_batch 30 0 (fun _ => false) 0 []
      { initialPoolState with
          raw_proxies := ["a:1", "b:1", "c:1", "d:1", "e:1"] }).2.length = 5 := by
  have h := validate_batch_candidate_selection 30 0 (fun _ => false) 0 []
    { initialPoolState with raw_proxies := ["a:1", "b:1", "c:1", "d:1", "e:1"] }
    rfl (by decide)
  exact ⟨(h.1 (by decide)).2.1, by decide, by decide⟩

/-! ## The raw-list refresh -/

/-- A source "succeeds" in the spec's sense when it is reachable and
returns a success status (proxy_manager.py:80 tests `status_code == 200`);
an unreachable source or a non-200 status is the fail-soft case. -/
def sourceSucceeded (r : SourceResponse) : Bool :=
  match r with
  | some (status, _) => status = 200
  | none => false

/-- Counterexample to C6: a source can succeed (HTTP 200) while
contributing zero parseable `host:port` lines, so the merged set is
empty and `_fetch_raw_proxies` is a no-op — `raw_proxies` is not
replaced, `last_fetch` not updated, `failed_proxies` not cleared,
although one source succeeded. -/
theorem fetch_raw_succeeding_source_can_noop :
    sourceSucceeded (some (200, "hello")) = true ∧
    (fetch_raw_proxies 100 [some (200, "hello")]
      { initialPoolState with
          raw_proxies := ["9.9.9.9:99"],
          failed_proxies := insert "8.8.8.8:88" ∅ }).2 =
      { initialPoolState with
          raw_proxies := ["9.9.9.9:99"],
          failed_proxies := insert "8.8.8.8:88" ∅ } ∧
    (fetch_raw_proxies 100 [some (200, "hello")]
      { initialPoolState with
          raw_proxies := ["9.9.9.9:99"],
          failed_proxies := insert "8.8.8.8:88" ∅ }).2.failed_proxies ≠ ∅ ∧
    (fetch_raw_proxies 100 [some (200, "hello")]
      { initialPoolState with
          raw_proxies := ["9.9.9.9:99"],
          failed_proxies := insert "8.8.8.8:88" ∅ }).2.last_fetch ≠ 100 := by
  refine ⟨by decide, by decide, by decide, by decide⟩

/-- C6 (amended).  The refresh branches on the merged, deduplicated
parse of all source responses: when it is empty (all sources failed,
or every succeeding source contributed no parseable line), the refresh
is a no-op — `raw_proxies` unchanged, `failed_proxies` kept,
`last_fetch` kept — and reports failure; when it is nonempty,
`raw_proxies` is replaced wholesale by it, `last_fetch` is updated,
and `failed_proxies` is cleared. -/
theorem fetch_raw_update_iff_merge_nonempty (now : Nat)
    (responses : List SourceResponse) (s : PoolState) :
    ((responses.foldl (fun acc r => acc ++ sourceProxies r) []).dedup = [] →
      fetch_raw_proxies now responses s = (false, s)) ∧
    ((responses.foldl (fun acc r => acc ++ sourceProxies r) []).dedup ≠ [] →
      fetch_raw_proxies now responses s =
        (true, { s with
          raw_proxies := (responses.foldl (fun acc r => acc ++ sourceProxies r) []).dedup,
          last_fetch := now, failed_proxies := ∅ })) := by
  constructor
  · intro hmerge
    simp [fetch_raw_proxies, hmerge]
  · intro hmerge
    have hne : ((responses.foldl (fun acc r => acc ++ sourceProxies r) []).dedup).isEmpty
        = false := by
      cases h : (responses.foldl (fun acc r => acc ++ sourceProxies r) []).dedup with
      | nil => exact absurd h hmerge
      | cons a l => rfl
    simp [fetch_raw_proxies, hne]

/-- Witness for the amended C6, exercising both branches: a succeeding
source with no parseable lines leaves the initial state untouched; a
source with one parseable address replaces the raw list, stamps the
fetch time and clears the failed set. -/
theorem fetch_raw_update_iff_merge_nonempty_witness :
    fetch_raw_proxies 10 [some (200, "hello")] initialPoolState =
      (false, initialPoolState) ∧
    fetch_raw_proxies 10 [some (200, "1.2.3.4:80")]
      { initialPoolState with failed_proxies := insert "8.8.8.8:88" ∅ } =
      (true, { initialPoolState with
               raw_proxies := ["1.2.3.4:80"],
               last_fetch := 10, failed_proxies := ∅ }) := by
  constructor
  · exact (fetch_raw_update_iff_merge_nonempty 10 [some (200, "hello")]
      initialPoolState).1 (by decide)
  · exact ((fetch_raw_update_iff_merge_nonempty 10 [some (200, "1.2.3.4:80")]
      { initialPoolState with failed_proxies := insert "8.8.8.8:88" ∅ }).2
      (by decide)).trans (by decide)

/-! ## The pool invariant -/

/-- The maintained shape of the pool: the ready deque and the raw list
are duplicate-free, and no ready address is simultaneously failed. -/
def poolInv (s : PoolState) : Prop :=
  s.ready_proxies.Nodup ∧ s.raw_proxies.Nodup ∧
  ∀ a ∈ s.ready_proxies, a ∉ s.failed_proxies

/-- A raw-list refresh preserves the pool invariant: either nothing
changes, or the raw list becomes a deduplicated merge and the failed
set is cleared. -/
theorem poolInv_fetch_raw (now : Nat) (responses : List SourceResponse)
    (s : PoolState) (h : poolInv s) : poolInv (fetch_raw_proxies now responses s).2 := by
  rcases h with ⟨hready, hraw, hdis⟩
  simp only [fetch_raw_proxies]
  split
  · exact ⟨hready, hraw, hdis⟩
  · exact ⟨hready, List.nodup_dedup _, fun a _ => Finset.not_mem_empty a⟩

/-- Marking a proxy failed preserves the pool invariant: the address
enters the failed set and leaves the (duplicate-free) ready deque. -/
theorem poolInv_mark_proxy_failed (proxy_url : String) (s : PoolState)
    (h : poolInv s) : poolInv (mark_proxy_failed proxy_url s) := by
  rcases h with ⟨hready, hraw, hdis⟩
  refine ⟨hready.erase _, hraw, ?_⟩
  intro a ha
  simp only [mark_proxy_failed] at ha ⊢
  rw [hready.mem_erase_iff] at ha
  rw [Finset.mem_insert]
  push_neg
  exact ⟨ha.1, hdis a ha.2⟩

/-- Membership description of the primary candidate selection. -/
theorem mem_primaryCandidates (s : PoolState) (a : String) :
    a ∈ primaryCandidates s ↔
      a ∈ s.raw_proxies ∧ a ∉ s.ready_proxies ∧ a ∉ s.failed_proxies := by
  simp [primaryCandidates, List.mem_filter]

/-- Membership description of the fallback candidate selection. -/
theorem mem_fallbackCandidates (s : PoolState) (a : String) :
    a ∈ fallbackCandidates s ↔ a ∈ s.raw_proxies ∧ a ∉ s.ready_proxies := by
  simp [fallbackCandidates, List.mem_filter]

/-- The modelled random sample stays inside its population and keeps it
duplicate-free. -/
theorem randomSample_nodup_subset (seed k : Nat) (l : List String)
    (hl : l.Nodup) :
    (randomSample seed l k).Nodup ∧ ∀ p ∈ randomSample seed l k, p ∈ l := by
  constructor
  · exact (List.nodup_rotate.mpr hl).sublist (List.take_sublist _ _)
  · intro p hp
    exact List.mem_rotate.mp ((List.take_sublist _ _).subset hp)

/-- The validation loop preserves the pool invariant when its batch is
duplicate-free and disjoint from both the ready deque and the failed
set — exactly what the candidate selection guarantees. -/
theorem poolInv_validateLoop (validate : String → Bool) :
    ∀ (batch : List String) (s : PoolState),
    poolInv s → batch.Nodup →
    (∀ p ∈ batch, p ∉ s.ready_proxies ∧ p ∉ s.failed_proxies) →
    poolInv (validateLoop validate batch s).1 := by
  intro batch
  induction batch with
  | nil => intro s h _ _; exact h
  | cons p rest ih =>
      intro s h hnd hprops
      rcases h with ⟨hready, hraw, hdis⟩
      have hp := hprops p (List.mem_cons_self _ _)
      rw [List.nodup_cons] at hnd
      by_cases hfull : READY_MAXLEN ≤ s.ready_proxies.length
      · simp only [validateLoop, if_pos hfull]
        exact ⟨hready, hraw, hdis⟩
      · have happ : dequeAppend READY_MAXLEN s.ready_proxies p =
            s.ready_proxies ++ [p] := by
          unfold dequeAppend
          rw [if_pos (Nat.lt_of_not_le hfull)]
        by_cases hv : validate p = true
        · simp only [validateLoop, if_neg hfull, if_pos hv]
          apply ih
          · refine ⟨?_, hraw, ?_⟩
            · rw [happ]
              simp [List.nodup_append, hready, hp.1]
            · intro a ha
              rw [happ] at ha
              rcases List.mem_append.mp ha with hm | hm
              · exact hdis a hm
              · simp at hm
                subst hm
                exact hp.2
          · exact hnd.2
          · intro q hq
            have hqp := hprops q (List.mem_cons_of_mem _ hq)
            refine ⟨?_, hqp.2⟩
            rw [happ]
            intro hmem
            rcases List.mem_append.mp hmem with hm | hm
            · exact hqp.1 hm
            · simp at hm
              exact hnd.1 (hm ▸ hq)
        · simp only [validateLoop, if_neg hfull, if_neg hv]
          apply ih
          · refine ⟨hready, hraw, ?_⟩
            intro a ha
            rw [Finset.mem_insert]
            push_neg
            refine ⟨?_, hdis a ha⟩
            intro heq
            exact hp.1 (heq ▸ ha)
          · exact hnd.2
          · intro q hq
            have hqp := hprops q (List.mem_cons_of_mem _ hq)
            refine ⟨hqp.1, ?_⟩
            rw [Finset.mem_insert]
            push_neg
            exact ⟨fun heq => hnd.1 (heq ▸ hq), hqp.2⟩

/-- The selection-and-validation body of `_validate_batch` preserves
the pool invariant. -/
theorem poolInv_validateBatchFrom (batch_size seed : Nat)
    (validate : String → Bool) (s2 : PoolState) (h2 : poolInv s2) :
    poolInv (validateBatchFrom batch_size seed validate s2).1 := by
  rcases h2 with ⟨hready, hraw, hdis⟩
  unfold validateBatchFrom
  by_cases hre : s2.raw_proxies.isEmpty = true
  · simp only [if_pos hre]
    exact ⟨hready, hraw, hdis⟩
  · simp only [if_neg hre]
    by_cases hpc : (primaryCandidates s2).isEmpty = true
    · simp only [if_pos hpc]
      have hfnd : (fallbackCandidates s2).Nodup := hraw.filter _
      obtain ⟨hbnd, hbsub⟩ := randomSample_nodup_subset seed
        (min (fallbackCandidates s2).length batch_size) (fallbackCandidates s2) hfnd
      apply poolInv_validateLoop
      · exact ⟨hready, hraw, fun a _ => Finset.not_mem_empty a⟩
      · exact hbnd
      · intro p hp
        have := (mem_fallbackCandidates s2 p).mp (hbsub p hp)
        exact ⟨this.2, Finset.not_mem_empty p⟩
    · simp only [if_neg hpc]
      have hpnd : (primaryCandidates s2).Nodup := hraw.filter _
      obtain ⟨hbnd, hbsub⟩ := randomSample_nodup_subset seed
        (min (primaryCandidates s2).length batch_size) (primaryCandidates s2) hpnd
      apply poolInv_validateLoop
      · exact ⟨hready, hraw, hdis⟩
      · exact hbnd
      · intro p hp
        have := (mem_primaryCandidates s2 p).mp (hbsub p hp)
        exact ⟨this.2.1, this.2.2⟩

/-- `_validate_batch` preserves the pool invariant. -/
theorem poolInv_validate_batch (batch_size seed : Nat)
    (validate : String → Bool) (now : Nat) (responses : List SourceResponse)
    (s : PoolState) (h : poolInv s) :
    poolInv (validate_batch batch_size seed validate now responses s).1 := by
  unfold validate_batch
  by_cases hg : s.is_validating = true
  · simp only [if_pos hg]
    exact h
  · simp only [if_neg hg]
    apply poolInv_validateBatchFrom
    split
    · exact poolInv_fetch_raw now responses _ h
    · exact h

/-- The single-proxy rotation of `get_proxy` preserves the pool
invariant. -/
theorem poolInv_get_proxy (s : PoolState) (h : poolInv s) :
    poolInv (get_proxy s).2 := by
  rcases h with ⟨hready, hraw, hdis⟩
  unfold get_proxy
  cases hr : s.ready_proxies with
  | nil => exact ⟨hready, hraw, hdis⟩
  | cons p rest =>
      rw [hr] at hready hdis
      rw [List.nodup_cons] at hready
      refine ⟨?_, hraw, ?_⟩
      · simp [List.nodup_append, hready.1, hready.2]
      · intro a ha
        rcases List.mem_append.mp ha with hm | hm
        · exact hdis a (List.mem_cons_of_mem _ hm)
        · simp at hm
          exact hdis a (hm ▸ List.mem_cons_self _ _)

/-- Building a retry plan only rotates the ready deque, preserving the
pool invariant. -/
theorem poolInv_get_proxies_for_retry (n : Nat) (s : PoolState)
    (h : poolInv s) :
    poolInv { s with ready_proxies :=
      (get_proxies_for_retry n s.ready_proxies).2 } := by
  rcases h with ⟨hready, hraw, hdis⟩
  have hpool : (get_proxies_for_retry n s.ready_proxies).2 =
      s.ready_proxies.rotate (min n s.ready_proxies.length) :=
    takeNLoop_pool_rotate _ _ _ _
  refine ⟨?_, hraw, ?_⟩
  · rw [hpool, List.nodup_rotate]
    exact hready
  · intro a ha
    rw [hpool, List.mem_rotate] at ha
    exact hdis a ha

/-- The pool-mutating operations of `ProxyManager`, with the
environment inputs each needs (wall-clock time, source responses,
validation verdicts, sample seed). -/
inductive PoolOp where
  | fetchRaw (now : Nat) (responses : List SourceResponse)
  | validateBatch (batch_size seed : Nat) (validate : String → Bool)
      (now : Nat) (responses : List SourceResponse)
  | refreshPool (seed : Nat) (validate : String → Bool) (now : Nat)
      (responses : List SourceResponse)
  | markFailed (proxy_url : String)
  | getProxy
  | getRetry (count : Nat)

/-- The state transformation of one pool operation. -/
def applyOp : PoolOp → PoolState → PoolState
  | .fetchRaw now responses, s => (fetch_raw_proxies now responses s).2
  | .validateBatch b seed v now responses, s =>
      (validate_batch b seed v now responses s).1
  | .refreshPool seed v now responses, s => refresh_proxy_pool seed v now responses s
  | .markFailed proxy_url, s => mark_proxy_failed proxy_url s
  | .getProxy, s => (get_proxy s).2
  | .getRetry n, s =>
      { s with ready_proxies := (get_proxies_for_retry n s.ready_proxies).2 }

/-- Every single pool operation preserves the pool invariant. -/
theorem applyOp_preserves_poolInv (op : PoolOp) (s : PoolState)
    (h : poolInv s) : poolInv (applyOp op s) := by
  cases op with
  | fetchRaw now responses => exact poolInv_fetch_raw now responses s h
  | validateBatch b seed v now responses =>
      exact poolInv_validate_batch b seed v now responses s h
  | refreshPool seed v now responses =>
      exact poolInv_validate_batch 50 seed v now responses _
        (poolInv_fetch_raw now responses s h)
  | markFailed proxy_url => exact poolInv_mark_proxy_failed proxy_url s h
  | getProxy => exact poolInv_get_proxy s h
  | getRetry n => exact poolInv_get_proxies_for_retry n s h

/-- C7.  Starting from the freshly constructed manager, after any
sequence of pool-mutating operations (raw-list refreshes, validation
batches, full refreshes, live-request failure marks, and the rotating
reads) no address is simultaneously in the ready deque and in the
failed set — and the ready deque never holds duplicates. -/
theorem pool_ops_preserve_ready_failed_disjoint (ops : List PoolOp) :
    poolInv (ops.foldl (fun s op => applyOp op s) initialPoolState) := by
  suffices hgen : ∀ s : PoolState, poolInv s →
      poolInv (ops.foldl (fun s op => applyOp op s) s) by
    exact hgen initialPoolState
      ⟨List.nodup_nil, List.nodup_nil, by simp [initialPoolState]⟩
  induction ops with
  | nil => intro s hs; exact hs
  | cons op rest ih =>
      intro s hs
      exact ih _ (applyOp_preserves_poolInv op s hs)

/-! ## The background worker, eviction idempotence, and stats -/

/-- Counterexample to C8: the initial fetch-and-validate cycle
(proxy_manager.py:52) runs before — and outside — the `try/except` of
the steady-state loop, so an exception raised there propagates and the
worker thread terminates without any shutdown signal. -/
theorem background_worker_initial_cycle_crash :
    background_worker CycleOutcome.raises [] = WorkerExit.crashed ∧
    background_worker CycleOutcome.raises [] ≠ WorkerExit.stopped := by
  exact ⟨rfl, by decide⟩

/-- C8 (amended).  Once the worker reaches its steady-state loop, no
exception raised by a loop iteration terminates it: every iteration's
body runs inside `try/except Exception` and the loop continues (after a
back-off wait), whatever the iterations do, until the shutdown signal
ends the trace.  Only an exception in the initial startup
fetch-and-validate cycle — which runs before the loop's `try` — can
kill the task. -/
theorem background_worker_loop_exceptions_survived
    (loopCycles : List CycleOutcome) :
    background_worker CycleOutcome.ok loopCycles = WorkerExit.stopped := by
  show workerSteadyLoop loopCycles = WorkerExit.stopped
  induction loopCycles with
  | nil => rfl
  | cons c rest ih => exact ih

/-- Counterexample to C9: `deque.remove` drops only the first
occurrence, so on a pool state whose ready deque holds the same address
twice, evicting it twice empties the deque while evicting it once
leaves one copy — the final states differ. -/
theorem mark_proxy_failed_not_idempotent_on_dup :
    mark_proxy_failed "http://1.2.3.4:80"
      (mark_proxy_failed "http://1.2.3.4:80"
        { initialPoolState with ready_proxies := ["1.2.3.4:80", "1.2.3.4:80"] }) ≠
    mark_proxy_failed "http://1.2.3.4:80"
      { initialPoolState with ready_proxies := ["1.2.3.4:80", "1.2.3.4:80"] } := by
  decide

/-- C9 (amended).  On every pool state whose ready deque is
duplicate-free — which holds for all states the manager actually
reaches, see `poolInv` — evicting the same address twice produces
exactly the state of evicting it once: the failed-set insert is
idempotent and the second `deque.remove` finds nothing to remove. -/
theorem mark_proxy_failed_idempotent_nodup (proxy_url : String)
    (s : PoolState) (h : s.ready_proxies.Nodup) :
    mark_proxy_failed proxy_url (mark_proxy_failed proxy_url s) =
      mark_proxy_failed proxy_url s := by
  simp only [mark_proxy_failed]
  have herase : (s.ready_proxies.erase
        (pyReplace (pyReplace proxy_url "http://" "") "https://" "")).erase
        (pyReplace (pyReplace proxy_url "http://" "") "https://" "") =
      s.ready_proxies.erase
        (pyReplace (pyReplace proxy_url "http://" "") "https://" "") := by
    apply List.erase_of_not_mem
    intro hmem
    exact ((h.mem_erase_iff).mp hmem).1 rfl
  rw [herase, Finset.insert_idem]

/-- Witness for the amended C9 at a concrete duplicate-free pool. -/
theorem mark_proxy_failed_idempotent_nodup_witness :
    mark_proxy_failed "http://1.2.3.4:80"
      (mark_proxy_failed "http://1.2.3.4:80"
        { initialPoolState with ready_proxies := ["1.2.3.4:80", "5.6.7.8:80"] }) =
    mark_proxy_failed "http://1.2.3.4:80"
      { initialPoolState with ready_proxies := ["1.2.3.4:80", "5.6.7.8:80"] } :=
  mark_proxy_failed_idempotent_nodup "http://1.2.3.4:80"
    { initialPoolState with ready_proxies := ["1.2.3.4:80", "5.6.7.8:80"] }
    (by decide)

/-- C10.  The stats snapshot reports `last_fetch_ago` as `None` exactly
while `last_fetch` still holds its initial zero (no raw-list fetch ever
succeeded); after a successful fetch at a (necessarily positive) time
`t`, a snapshot at time `t2` reports the elapsed seconds `t2 - t`. -/
theorem get_stats_last_fetch_ago_spec (s : PoolState) (now : Nat) :
    (s.last_fetch = 0 → (get_stats now s).last_fetch_ago = none) ∧
    (∀ (t t2 : Nat) (responses : List SourceResponse), 0 < t →
      (fetch_raw_proxies t responses s).1 = true →
      (get_stats t2 (fetch_raw_proxies t responses s).2).last_fetch_ago =
        some (t2 - t)) := by
  constructor
  · intro h0
    simp [get_stats, h0]
  · intro t t2 responses ht hsucc
    cases hb : ((responses.foldl (fun acc r => acc ++ sourceProxies r) []).dedup).isEmpty with
    | true => simp [fetch_raw_proxies, hb] at hsucc
    | false =>
        have ht' : t ≠ 0 := by omega
        simp [fetch_raw_proxies, hb, get_stats, ht']

/-- Witness for C10: the fresh manager reports no fetch age; after a
successful fetch at time 10, a snapshot at time 25 reports 15 seconds. -/
theorem get_stats_last_fetch_ago_spec_witness :
    (get_stats 5 initialPoolState).last_fetch_ago = none ∧
    (get_stats 25
      (fetch_raw_proxies 10 [some (200, "1.2.3.4:80")] initialPoolState).2).last_fetch_ago =
      some 15 := by
  constructor
  · exact (get_stats_last_fetch_ago_spec initialPoolState 5).1 rfl
  · exact ((get_stats_last_fetch_ago_spec initialPoolState 25).2 10 25
      [some (200, "1.2.3.4:80")] (by decide) (by decide)).trans (by decide)

end YtTranscript
